import Mathlib

/-!
Verification development for the mcps-proxy connection-management and
protocol-aggregation core.  The TypeScript source is shallowly embedded:
JavaScript numbers that can be `NaN` are modelled by `JSNum`, the `btoa` /
`atob` base64 built-ins and `parseInt` are modelled as executable functions,
and each method of `MCPConnectionManager`, `HTTPMCPServer`, `StdioMCPServer`
and `NotificationManager` that the properties mention becomes a Lean
definition over explicit state.
-/

namespace McpsProxy

/-- Model of a JavaScript number as used by the cursor arithmetic: either
`NaN` (produced by `parseInt` on a non-numeric string) or an exact integer.
The source only ever manipulates integral offsets, so no other float values
arise. -/
inductive JSNum where
  | nan
  | num (i : Int)
deriving DecidableEq, Repr

/-- JavaScript `+` restricted to the values above: `NaN` propagates. -/
def JSNum.add : JSNum → JSNum → JSNum
  | .num a, .num b => .num (a + b)
  | _, _ => .nan

/-- JavaScript `x < n` against a list length: any comparison with `NaN` is
`false`. -/
def JSNum.ltNat : JSNum → Nat → Bool
  | .nan, _ => false
  | .num i, n => i < (n : Int)

/-- JavaScript `Math.floor(x / k)` for integral `x`: floor division,
`NaN` propagates. -/
def JSNum.fdivNat : JSNum → Nat → JSNum
  | .nan, _ => .nan
  | .num i, k => .num (Int.fdiv i k)

/-- `ToIntegerOrInfinity` followed by the index clamping that
`Array.prototype.slice` applies to its arguments: `NaN` becomes `0`, a
negative index counts from the end (clamped at `0`), a positive index is
clamped at the length. -/
def jsSliceIdx (len : Nat) : JSNum → Nat
  | .nan => 0
  | .num i => if i < 0 then ((len : Int) + i).toNat else min i.toNat len

/-- JavaScript `Array.prototype.slice(s, e)`: the window `[s, e)` after
clamping both indices. -/
def jsSlice (l : List α) (s e : JSNum) : List α :=
  (l.take (jsSliceIdx l.length e)).drop (jsSliceIdx l.length s)

/-! ### Decimal representation and `parseInt` -/

/-- The character for a decimal digit. -/
def digitChar (d : Nat) : Char := Char.ofNat (48 + d)

/-- Decimal digits, least significant first; structural recursion on a
fuel argument so that the kernel can evaluate it. -/
def natDigitsRevAux : Nat → Nat → List Char
  | 0, _ => []
  | fuel + 1, n =>
    if n < 10 then [digitChar n] else digitChar (n % 10) :: natDigitsRevAux fuel (n / 10)

/-- Decimal digits of `n`, least significant first (`n + 1` units of fuel
always suffice). -/
def natDigitsRev (n : Nat) : List Char := natDigitsRevAux (n + 1) n

/-- Decimal representation of a natural number, modelling
`Number.prototype.toString` on a non-negative integer. -/
def natRepr (n : Nat) : String := String.mk (natDigitsRev n).reverse

/-- `Number.prototype.toString` on the `JSNum` values the code prints. -/
def jsNumRepr : JSNum → String
  | .nan => "NaN"
  | .num i => if i < 0 then "-" ++ natRepr (-i).toNat else natRepr i.toNat

/-- Decimal digit test used by `parseInt`. -/
def isDigitCh (c : Char) : Bool := 48 ≤ c.toNat && c.toNat ≤ 57

/-- The JavaScript whitespace characters `parseInt` skips. -/
def jsWhitespace (c : Char) : Bool :=
  c.toNat = 32 || c.toNat = 9 || c.toNat = 10 || c.toNat = 13 || c.toNat = 11 || c.toNat = 12

/-- Value of a list of decimal digit characters, most significant first. -/
def digitsToNat (ds : List Char) : Nat :=
  ds.foldl (fun a c => a * 10 + (c.toNat - 48)) 0

/-- Digit-prefix step of `parseInt`: take the leading digits; no digits
means `NaN`. -/
def parseIntCore (cs : List Char) (sign : Int) : JSNum :=
  let ds := cs.takeWhile isDigitCh
  if ds.isEmpty then .nan else .num (sign * (digitsToNat ds : Int))

/-- Model of JavaScript `parseInt(s, 10)`: skip whitespace, read an optional
sign, then the longest digit prefix; `NaN` when no digit follows. -/
def jsParseInt (s : String) : JSNum :=
  match s.data.dropWhile jsWhitespace with
  | [] => .nan
  | c :: r =>
    if c = '-' then parseIntCore r (-1)
    else if c = '+' then parseIntCore r 1
    else parseIntCore (c :: r) 1

/-! ### base64 (`btoa` / `atob`) -/

/-- The base64 alphabet, index `n` holding the character for sextet `n`. -/
def b64Alphabet : List Char :=
  ['A', 'B', 'C', 'D', 'E', 'F', 'G', 'H', 'I', 'J', 'K', 'L', 'M',
   'N', 'O', 'P', 'Q', 'R', 'S', 'T', 'U', 'V', 'W', 'X', 'Y', 'Z',
   'a', 'b', 'c', 'd', 'e', 'f', 'g', 'h', 'i', 'j', 'k', 'l', 'm',
   'n', 'o', 'p', 'q', 'r', 's', 't', 'u', 'v', 'w', 'x', 'y', 'z',
   '0', '1', '2', '3', '4', '5', '6', '7', '8', '9', '+', '/']

/-- Character encoding one sextet. -/
def sextetChar (n : Nat) : Char := b64Alphabet.getD n 'A'

/-- Inverse lookup in the base64 alphabet; `none` for a character outside
it (including `=`). -/
def sextetOf? (c : Char) : Option Nat :=
  (b64Alphabet.enum.find? (fun p => p.2 = c)).map (fun p => p.1)

/-- `btoa`: encode a byte list, chunks of three bytes giving four sextet
characters, with `=` padding on a final short chunk. -/
def b64EncodeBytes : List Nat → List Char
  | [] => []
  | [b0] => [sextetChar (b0 / 4), sextetChar (b0 % 4 * 16), '=', '=']
  | [b0, b1] =>
    [sextetChar (b0 / 4), sextetChar (b0 % 4 * 16 + b1 / 16), sextetChar (b1 % 16 * 4), '=']
  | b0 :: b1 :: b2 :: rest =>
    sextetChar (b0 / 4) :: sextetChar (b0 % 4 * 16 + b1 / 16) ::
      sextetChar (b1 % 16 * 4 + b2 / 64) :: sextetChar (b2 % 64) :: b64EncodeBytes rest

/-- The same encoding without the trailing `=` padding characters. -/
def b64EncodeStripped : List Nat → List Char
  | [] => []
  | [b0] => [sextetChar (b0 / 4), sextetChar (b0 % 4 * 16)]
  | [b0, b1] =>
    [sextetChar (b0 / 4), sextetChar (b0 % 4 * 16 + b1 / 16), sextetChar (b1 % 16 * 4)]
  | b0 :: b1 :: b2 :: rest =>
    sextetChar (b0 / 4) :: sextetChar (b0 % 4 * 16 + b1 / 16) ::
      sextetChar (b1 % 16 * 4 + b2 / 64) :: sextetChar (b2 % 64) :: b64EncodeStripped rest

/-- The sextet values the stripped encoding carries. -/
def sextetListOf : List Nat → List Nat
  | [] => []
  | [b0] => [b0 / 4, b0 % 4 * 16]
  | [b0, b1] => [b0 / 4, b0 % 4 * 16 + b1 / 16, b1 % 16 * 4]
  | b0 :: b1 :: b2 :: rest =>
    (b0 / 4) :: (b0 % 4 * 16 + b1 / 16) :: (b1 % 16 * 4 + b2 / 64) :: (b2 % 64) ::
      sextetListOf rest

/-- Reassemble bytes from sextets: four sextets give three bytes, a final
group of three gives two, of two gives one. -/
def b64DecodeSextets : List Nat → List Nat
  | s0 :: s1 :: s2 :: s3 :: rest =>
    (s0 * 4 + s1 / 16) :: (s1 % 16 * 16 + s2 / 4) :: (s2 % 4 * 64 + s3) ::
      b64DecodeSextets rest
  | [s0, s1] => [s0 * 4 + s1 / 16]
  | [s0, s1, s2] => [s0 * 4 + s1 / 16, s1 % 16 * 16 + s2 / 4]
  | _ => []

/-- Map every character to its sextet, failing on the first character
outside the alphabet. -/
def sextetsOf? : List Char → Option (List Nat)
  | [] => some []
  | c :: r =>
    match sextetOf? c, sextetsOf? r with
    | some s, some rest => some (s :: rest)
    | _, _ => none

/-- Remove one or two trailing `=` characters (the padding-stripping step
of forgiving base64). -/
def dropTrailingEq (cs : List Char) : List Char :=
  if cs.getLast? = some '=' then
    if cs.dropLast.getLast? = some '=' then cs.dropLast.dropLast else cs.dropLast
  else cs

/-- Forgiving base64 decode on characters: strip padding when the length is
a multiple of four, reject a remainder-one length or a character outside the
alphabet, then reassemble the bytes.  (Whitespace removal is omitted: no
cursor string the development evaluates contains whitespace.) -/
def atobChars? (cs : List Char) : Option (List Nat) :=
  let cs := if cs.length % 4 = 0 then dropTrailingEq cs else cs
  if cs.length % 4 = 1 then none
  else (sextetsOf? cs).map b64DecodeSextets

/-- Model of the `atob` built-in: `none` models the thrown
`InvalidCharacterError`. -/
def atob? (s : String) : Option String :=
  (atobChars? s.data).map (fun bs => String.mk (bs.map Char.ofNat))

/-- Model of the `btoa` built-in on strings of code points below 256 (the
only strings the source ever encodes are decimal offsets). -/
def btoa (s : String) : String :=
  String.mk (b64EncodeBytes (s.data.map Char.toNat))

/-- Padding characters the full encoding appends after the stripped one. -/
def b64Pad : List Nat → List Char
  | [] => []
  | [_] => ['=', '=']
  | [_, _] => ['=']
  | _ :: _ :: _ :: rest => b64Pad rest

/-- Value of a digit list read least-significant first. -/
def valRev : List Char → Nat
  | [] => 0
  | c :: r => (c.toNat - 48) + 10 * valRev r

/-! ### Capability descriptors and the aggregation loops
(`MCPConnectionManager.listTools` / `listResources` / `listPrompts` /
`listResourceTemplates`) -/

/-- A single quote character, used to reproduce the error strings of the
source verbatim. -/
def squote : String := String.mk [Char.ofNat 39]

/-- A tool descriptor: its declared name and its `annotations.title`
(the only annotation field the aggregation touches, flattened into the
record). -/
structure Tool where
  name : String
  title : Option String
deriving DecidableEq, Repr

/-- A resource descriptor: name, uri, and `annotations.priority`
(flattened). -/
structure Resource where
  name : String
  uri : String
  priority : Option ℚ
deriving DecidableEq, Repr

/-- A prompt descriptor. -/
structure Prompt where
  name : String
deriving DecidableEq, Repr

/-- A resource template descriptor (name, uriTemplate, mimeType,
description, and the flattened `annotations.title`). -/
structure ResourceTemplate where
  name : String
  uriTemplate : String
  mimeType : String
  description : String
  title : Option String
deriving DecidableEq, Repr

/-- How a member connection answers `listResourceTemplates`:
the method may be absent, may throw (caught and skipped), or may return a
result whose `resourceTemplates` field may itself be missing. -/
inductive TemplateBehavior where
  | unsupported
  | throws
  | returns (ts : Option (List ResourceTemplate))
deriving DecidableEq, Repr

/-- One member connection of a schema as the aggregation loops observe it:
its id, whether `isConnected()` holds, and the outcome of each listing
call — `none` models the call throwing, which every loop catches and
skips. -/
structure MemberConn where
  serverId : String
  connected : Bool
  toolList : Option (List Tool)
  resourceList : Option (List Resource)
  promptList : Option (List Prompt)
  templates : TemplateBehavior
deriving DecidableEq, Repr

/-- The per-tool rewrite of `listTools`: prefix the name with
`{serverId}-` and default the annotations title (JavaScript `||`, so an
empty title is also replaced). -/
def prefixedTool (sid : String) (t : Tool) : Tool :=
  { name := sid ++ "-" ++ t.name,
    title := some (match t.title with
      | some ti => if ti = "" then "[" ++ sid ++ "] " ++ t.name else ti
      | none => "[" ++ sid ++ "] " ++ t.name) }

/-- Tools one member contributes to the aggregate. -/
def memberTools (m : MemberConn) : List Tool :=
  if m.connected then
    match m.toolList with
    | some ts => ts.map (prefixedTool m.serverId)
    | none => []
  else []

/-- The aggregated (unpaginated) tool list, in connection-registration
order. -/
def aggregateTools (ms : List MemberConn) : List Tool :=
  (ms.map memberTools).flatten

/-- The per-resource rewrite of `listResources`: only the priority
annotation is defaulted (JavaScript `||`, so priority `0` is also
replaced by `0.5`); the resource name is left untouched. -/
def defaultedResource (r : Resource) : Resource :=
  { r with priority := some (match r.priority with
      | some p => if p = 0 then 1/2 else p
      | none => 1/2) }

/-- Resources one member contributes to the aggregate. -/
def memberResources (m : MemberConn) : List Resource :=
  if m.connected then
    match m.resourceList with
    | some rs => rs.map defaultedResource
    | none => []
  else []

/-- The aggregated (unpaginated) resource list. -/
def aggregateResources (ms : List MemberConn) : List Resource :=
  (ms.map memberResources).flatten

/-- Prompts one member contributes: pushed through without any rewrite. -/
def memberPrompts (m : MemberConn) : List Prompt :=
  if m.connected then
    match m.promptList with
    | some ps => ps
    | none => []
  else []

/-- `listPrompts`: aggregation without prefixing and without pagination. -/
def aggregatePrompts (ms : List MemberConn) : List Prompt :=
  (ms.map memberPrompts).flatten

/-! ### Pagination -/

/-- A page returned by `listTools` / `listResources`, including the
`_meta` fields. -/
structure Page (α : Type) where
  items : List α
  nextCursor : Option String
  totalItems : Nat
  currentPage : JSNum
  totalPages : Nat
deriving DecidableEq, Repr

/-- The cursor-decoding prelude shared by `listTools` and
`listResources`: a missing or empty cursor (JavaScript truthiness) means
offset 0; `atob` throwing is caught and also means offset 0; otherwise the
offset is whatever `parseInt(atob(cursor), 10)` yields — possibly `NaN`. -/
def decodeStartIndex (cursor : Option String) : JSNum :=
  match cursor with
  | none => .num 0
  | some c =>
    if c = "" then .num 0
    else
      match atob? c with
      | none => .num 0
      | some t => jsParseInt t

/-- The pagination epilogue of `listTools` (page size 50) and
`listResources` (page size 20): slice `[startIndex, startIndex+pageSize)`,
emit `nextCursor = btoa(endIndex.toString())` iff `endIndex` is below the
total, and fill the `_meta` fields. -/
def paginate (pageSize : Nat) (allItems : List α) (cursor : Option String) : Page α :=
  { items := jsSlice allItems (decodeStartIndex cursor)
      ((decodeStartIndex cursor).add (.num pageSize)),
    nextCursor :=
      if ((decodeStartIndex cursor).add (.num pageSize)).ltNat allItems.length then
        some (btoa (jsNumRepr ((decodeStartIndex cursor).add (.num pageSize))))
      else none,
    totalItems := allItems.length,
    currentPage := ((decodeStartIndex cursor).fdivNat pageSize).add (.num 1),
    totalPages := (allItems.length + pageSize - 1) / pageSize }

/-- `MCPConnectionManager.listTools`. -/
def listToolsPage (ms : List MemberConn) (cursor : Option String) : Page Tool :=
  paginate 50 (aggregateTools ms) cursor

/-- `MCPConnectionManager.listResources`. -/
def listResourcesPage (ms : List MemberConn) (cursor : Option String) : Page Resource :=
  paginate 20 (aggregateResources ms) cursor

/-- The per-template rewrite of `listResourceTemplates`: name prefixed
with `{serverId}-`, uriTemplate prefixed with `{serverId}:`, title
defaulted. -/
def prefixedTemplate (sid : String) (t : ResourceTemplate) : ResourceTemplate :=
  { t with
    name := sid ++ "-" ++ t.name,
    uriTemplate := sid ++ ":" ++ t.uriTemplate,
    title := some (match t.title with
      | some ti => if ti = "" then "[" ++ sid ++ "] " ++ t.name else ti
      | none => "[" ++ sid ++ "] " ++ t.name) }

/-- Templates one member contributes. -/
def memberTemplates (m : MemberConn) : List ResourceTemplate :=
  if m.connected then
    match m.templates with
    | .returns (some ts) => ts.map (prefixedTemplate m.serverId)
    | _ => []
  else []

/-- The built-in generic templates always appended after the members'. -/
def defaultTemplates (schemaName : String) : List ResourceTemplate :=
  [{ name := "file-template", uriTemplate := "file://{path}", mimeType := "text/plain",
     description := "Generic file resource template", title := none },
   { name := "http-template", uriTemplate := "http://{host}/{path}", mimeType := "text/html",
     description := "HTTP resource template", title := none },
   { name := "schema-template", uriTemplate := "schema://" ++ schemaName ++ "/{resource}",
     mimeType := "application/json",
     description := "Schema-specific resource template for " ++ schemaName, title := none }]

/-- The result shape of `listResourceTemplates` (no `_meta` here). -/
structure TemplatePage where
  resourceTemplates : List ResourceTemplate
  nextCursor : Option String
deriving DecidableEq, Repr

/-- `MCPConnectionManager.listResourceTemplates`: note the different
cursor handling — a bare `parseInt(cursor)` with no base64 decode and no
try/catch fallback, and a plain decimal `nextCursor`. -/
def listTemplatesPage (ms : List MemberConn) (schemaName : String)
    (cursor : Option String) : TemplatePage :=
  let allTemplates := (ms.map memberTemplates).flatten ++ defaultTemplates schemaName
  let startIndex : JSNum :=
    match cursor with
    | none => .num 0
    | some c => if c = "" then .num 0 else jsParseInt c
  let endIndex := startIndex.add (.num 50)
  { resourceTemplates := jsSlice allTemplates startIndex endIndex,
    nextCursor :=
      if endIndex.ltNat allTemplates.length then some (jsNumRepr endIndex) else none }

/-! ### `MCPConnectionManager.callTool` -/

/-- One content block of a tool result. -/
structure ToolCallContent where
  type : String
  text : String
deriving DecidableEq, Repr

/-- A tool result; `isError = none` models the field being absent. -/
structure ToolCallResult where
  content : List ToolCallContent
  isError : Option Bool
deriving DecidableEq, Repr

/-- Outcome of invoking `server.callTool` on a member: a result, or a
thrown transport error. -/
inductive CallOutcome where
  | ok (r : ToolCallResult)
  | throwsWith (msg : String)

/-- A member connection as `callTool` observes it: connection flag and the
behaviour of its `callTool` method (given the unprefixed tool name and the
unchanged argument payload). -/
structure CallServer where
  connected : Bool
  call : String → String → CallOutcome

/-- Split a character list at the first `-` (`String.indexOf` plus the two
`substring` calls of `parseToolName`); `none` when there is no `-`. -/
def splitFirstDash : List Char → Option (List Char × List Char)
  | [] => none
  | c :: r =>
    if c = '-' then some ([], r)
    else
      match splitFirstDash r with
      | none => none
      | some (a, b) => some (c :: a, b)

/-- `MCPConnectionManager.parseToolName`. -/
def parseToolName (s : String) : Option (String × String) :=
  (splitFirstDash s.data).map (fun p => (String.mk p.1, String.mk p.2))

/-- The `isError:true` result shape every failure branch of `callTool`
produces. -/
def errorResult (msg : String) : ToolCallResult :=
  { content := [{ type := "text", text := msg }], isError := some true }

/-- `MCPConnectionManager.callTool` over a schema given as an association
list of server ids to member behaviours. -/
def callTool (schemaName : String) (servers : List (String × CallServer))
    (name arguments : String) : ToolCallResult :=
  match parseToolName name with
  | none =>
    errorResult ("Invalid tool name format: " ++ name ++ ". Expected format: serverId-toolName")
  | some (sid, tname) =>
    if sid = "" ∨ tname = "" then
      errorResult ("Invalid tool name format: " ++ name ++ ". Expected format: serverId-toolName")
    else
      match servers.lookup sid with
      | none =>
        errorResult ("Server " ++ squote ++ sid ++ squote ++ " not found in schema " ++
          squote ++ schemaName ++ squote)
      | some srv =>
        if srv.connected = false then
          errorResult ("Server " ++ squote ++ sid ++ squote ++ " is not connected")
        else
          match srv.call tname arguments with
          | .throwsWith msg => errorResult ("Tool execution error: " ++ msg)
          | .ok r => { r with isError := some (r.isError.getD false) }

/-! ### `HTTPMCPServer.connect` -/

/-- Connection status of a single backend connection. -/
inductive ConnStatus where
  | disconnected
  | connected
  | error
deriving DecidableEq, Repr

/-- The mutable state of an `HTTPMCPServer` relevant to `connect`. -/
structure HTTPState where
  status : ConnStatus
  toolCount : Nat
  errorMsg : Option String
deriving DecidableEq, Repr

/-- The state of a freshly constructed `HTTPMCPServer`. -/
def freshHTTPState : HTTPState :=
  { status := .disconnected, toolCount := 0, errorMsg := none }

/-- `HTTPMCPServer.sendRequest`: guarded by `isConnected()` — when the
status is not `connected` it throws before any HTTP traffic happens.
`transport` is the reply the backend would give to a `tools/list` POST if
one were actually sent. -/
def httpSendRequest (st : HTTPState) (id : String)
    (transport : Except String (List Tool)) : Except String (List Tool) :=
  if st.status ≠ .connected then
    .error ("HTTP server " ++ squote ++ id ++ squote ++ " is not connected")
  else transport

/-- `HTTPMCPServer.testConnection`: a `tools/list` probe whose failure is
rewrapped. -/
def httpTestConnection (st : HTTPState) (id : String)
    (transport : Except String (List Tool)) : Except String Unit :=
  match httpSendRequest st id transport with
  | .error e => .error ("Connection test failed: Error: " ++ e)
  | .ok _ => .ok ()

/-- `HTTPMCPServer.connect`: probe, then `listTools` for the tool count,
then mark connected; any failure marks the status `error` and rethrows. -/
def httpConnect (st : HTTPState) (id : String)
    (transport : Except String (List Tool)) : HTTPState × Except String Unit :=
  if st.status = .connected then (st, .ok ())
  else
    match httpTestConnection st id transport with
    | .error e => ({ st with status := .error, errorMsg := some e }, .error e)
    | .ok _ =>
      match httpSendRequest st id transport with
      | .error e => ({ st with status := .error, errorMsg := some e }, .error e)
      | .ok ts =>
        ({ status := .connected, toolCount := ts.length, errorMsg := none }, .ok ())

/-! ### `StdioMCPServer`: restart timer, disconnect, pending requests -/

/-- The restart-related configuration of a process connection. -/
structure StdioConfig where
  restart : Bool
  restartDelay : Option Nat
deriving DecidableEq, Repr

/-- The observable state of a `StdioMCPServer` for the restart-timer
analysis: its status, whether a fire-and-forget restart `setTimeout` is
pending, and the ids of in-flight requests. -/
structure StdioConn where
  status : ConnStatus
  restartPending : Bool
  pendingIds : List Nat
deriving DecidableEq, Repr

/-- The `exit` listener installed by `setupProcessListeners`: mark
disconnected, and when restart is configured and the exit code is not `0`
(a `null` code from a signal also passes the `code !== 0` test), schedule
the restart timer. -/
def onProcessExit (cfg : StdioConfig) (c : StdioConn) (code : Option Int) : StdioConn :=
  let c' : StdioConn := { c with status := .disconnected }
  if cfg.restart ∧ code ≠ some 0 then { c' with restartPending := true } else c'

/-- `StdioMCPServer.disconnect`: early return when already disconnected;
otherwise reject and clear the pending requests, kill the process and mark
disconnected.  In neither branch is the restart timer touched — the
`setTimeout` handle is never stored anywhere. -/
def stdioDisconnect (c : StdioConn) : StdioConn :=
  if c.status = .disconnected then c
  else { c with pendingIds := [], status := .disconnected }

/-- The scheduled restart timer firing: it always invokes `connect` when
it was pending.  Returns the new state and whether a connect attempt
occurs. -/
def fireRestartTimer (c : StdioConn) : StdioConn × Bool :=
  ({ c with restartPending := false }, c.restartPending)

/-- The request-timeout configuration of a process connection
(`this.config.timeout || 30000`, so `0` also falls back to the
default). -/
structure StdioReqConfig where
  timeout : Option Nat
deriving DecidableEq, Repr

/-- The deadline `sendRequest` arms its timer with. -/
def requestDeadline (cfg : StdioReqConfig) : Nat :=
  match cfg.timeout with
  | some t => if t = 0 then 30000 else t
  | none => 30000

/-- One entry of the pending-request map: the request id and the delay its
deadline timer was armed with. -/
structure PendingEntry where
  id : Nat
  delay : Nat
deriving DecidableEq, Repr

/-- The request-correlation state of a `StdioMCPServer`. -/
structure ReqState where
  requestId : Nat
  pending : List PendingEntry
deriving DecidableEq, Repr

/-- Outcome of `sendRequest` as far as the pending map is concerned. -/
inductive SendOutcome where
  | accepted (id : Nat)
  | failed (msg : String)
deriving DecidableEq, Repr

/-- `StdioMCPServer.sendRequest`: allocate a fresh id, arm the deadline
timer and store the pending entry, then write to the subprocess stdin;
on a write failure or missing stdin the timer is cleared and the entry
deleted again, so only an accepted send leaves an entry behind. -/
def stdioSendRequest (cfg : StdioReqConfig) (st : ReqState)
    (processRunning stdinAvailable writeOk : Bool) : ReqState × SendOutcome :=
  if processRunning = false then (st, .failed "STDIO server process is not running")
  else
    let id := st.requestId
    let st' : ReqState := { st with requestId := st.requestId + 1 }
    if stdinAvailable then
      if writeOk then
        ({ st' with pending := st'.pending ++ [{ id := id, delay := requestDeadline cfg }] },
          .accepted id)
      else (st', .failed "write error")
    else (st', .failed "STDIN is not available")

/-- The deadline timer of request `id` firing: delete the entry and reject
with the timeout message. -/
def fireTimeout (method : String) (st : ReqState) (id : Nat) : ReqState × String :=
  ({ st with pending := st.pending.filter (fun e => e.id ≠ id) },
    "Request timeout: " ++ method)

/-- `StdioMCPServer.handleResponse` for a response carrying request id
`id`: an unmatched id is dropped with a warning; a matched one clears the
timer and the entry.  The boolean reports whether the response matched. -/
def handleResponse (st : ReqState) (id : Nat) : ReqState × Bool :=
  if st.pending.any (fun e => e.id = id) then
    ({ st with pending := st.pending.filter (fun e => e.id ≠ id) }, true)
  else (st, false)

/-! ### `MCPConnectionManager.getSchemaStatus` -/

/-- Schema-level status values of the `SchemaStatus` type. -/
inductive SchemaState where
  | active
  | disabled
  | error
deriving DecidableEq, Repr

/-- The status snapshot one member server reports. -/
structure ServerStatusRec where
  id : String
  status : ConnStatus
  toolCount : Option Nat
deriving DecidableEq, Repr

/-- The `SchemaStatus` record `getSchemaStatus` builds. -/
structure SchemaStatusRec where
  status : SchemaState
  mcpServers : List ServerStatusRec
  totalTools : Nat
  connectedServers : Nat
deriving DecidableEq, Repr

/-- `MCPConnectionManager.getSchemaStatus` for a registered schema: sum
the tool counts, count the connected members, and always report the
literal `"active"`. -/
def getSchemaStatus (servers : List ServerStatusRec) : SchemaStatusRec :=
  { status := .active,
    mcpServers := servers,
    totalTools := (servers.map (fun s => s.toolCount.getD 0)).sum,
    connectedServers := (servers.filter (fun s => s.status = .connected)).length }

/-! ### `NotificationManager` subscriptions and the subscribe handlers -/

/-- `NotificationManager.subscribeResource`: add to the subscription set
(insertion-ordered, as a JavaScript `Set`); the `try` never fails, so the
result is always `true`. -/
def subscribeResource (subs : List String) (uri : String) : List String × Bool :=
  ((if uri ∈ subs then subs else subs ++ [uri]), true)

/-- `NotificationManager.unsubscribeResource`: `Set.delete` (a no-op on an
absent element); again always `true`. -/
def unsubscribeResource (subs : List String) (uri : String) : List String × Bool :=
  (subs.erase uri, true)

/-- The `{success, message}` reply of the subscribe handlers. -/
structure SubscribeReply where
  success : Bool
  message : String
deriving DecidableEq, Repr

/-- `MCPMethodHandler.handleResourceSubscribe`. -/
def handleResourceSubscribe (subs : List String) (uri : String) :
    List String × SubscribeReply :=
  let r := subscribeResource subs uri
  (r.1, { success := r.2,
          message := if r.2 then "Successfully subscribed to " ++ uri
                     else "Failed to subscribe to " ++ uri })

/-- `MCPMethodHandler.handleResourceUnsubscribe`. -/
def handleResourceUnsubscribe (subs : List String) (uri : String) :
    List String × SubscribeReply :=
  let r := unsubscribeResource subs uri
  (r.1, { success := r.2,
          message := if r.2 then "Successfully unsubscribed from " ++ uri
                     else "Failed to unsubscribe from " ++ uri })

/-! ### Page-following processes and concrete scenarios -/

/-- Repeatedly call the paginated `listTools` on a fixed aggregated tool
list, starting from cursor `c` and following each returned `nextCursor`;
`fuel` bounds the number of calls. -/
def followPages (allTools : List Tool) : Option String → Nat → List (Page Tool)
  | _, 0 => []
  | c, fuel + 1 =>
    let r := paginate 50 allTools c
    r :: (match r.nextCursor with
          | none => []
          | some c' => followPages allTools (some c') fuel)

/-- A member whose `callTool` returns a success result with no `isError`
field. -/
def demoOkServer : CallServer :=
  { connected := true,
    call := fun t a => .ok { content := [{ type := "text", text := t ++ ":" ++ a }],
                             isError := none } }

/-- A member whose `callTool` throws a transport error. -/
def demoThrowServer : CallServer :=
  { connected := true, call := fun _ _ => .throwsWith "boom" }

/-- A member that is not connected. -/
def demoDownServer : CallServer :=
  { connected := false, call := fun _ _ => .throwsWith "unreachable" }

/-- A concrete schema exercising every `callTool` branch. -/
def demoSchema : List (String × CallServer) :=
  [("fsA", demoOkServer), ("bad", demoThrowServer), ("down", demoDownServer)]

/-- Sixty identical tools: enough for two `listTools` pages. -/
def demo60 : List Tool := List.replicate 60 { name := "t", title := none }

/-- Two connected members with distinct hyphen-free ids exposing
identically named tools. -/
def demoTwoMembers : List MemberConn :=
  [{ serverId := "a", connected := true, toolList := some [{ name := "t", title := none }],
     resourceList := none, promptList := none, templates := .unsupported },
   { serverId := "b", connected := true, toolList := some [{ name := "t", title := none }],
     resourceList := none, promptList := none, templates := .unsupported }]

/-- One connected member exposing a single resource named `r`. -/
def demoResMember : List MemberConn :=
  [{ serverId := "a", connected := true, toolList := none,
     resourceList := some [{ name := "r", uri := "file:///r", priority := none }],
     promptList := none, templates := .unsupported }]

/-- One connected member exposing a single tool named `t`. -/
def demoToolMember : List MemberConn :=
  [{ serverId := "a", connected := true, toolList := some [{ name := "t", title := none }],
     resourceList := none, promptList := none, templates := .unsupported }]

/-- The tools a member contributes to the aggregate, before the prefix
rewrite (the spec-side view of `listTools` aggregation). -/
def contributedTools (m : MemberConn) : List Tool :=
  if m.connected then m.toolList.getD [] else []

/-- The resources a member contributes, before the annotation rewrite. -/
def contributedResources (m : MemberConn) : List Resource :=
  if m.connected then m.resourceList.getD [] else []

/-- The prompts a member contributes. -/
def contributedPrompts (m : MemberConn) : List Prompt :=
  if m.connected then m.promptList.getD [] else []

/-! ### Roundtrip facts about the cursor codec -/

/-- Induction principle following the three-byte chunking of base64. -/
theorem threeChunkInduction {motive : List Nat → Prop} (h0 : motive [])
    (h1 : ∀ b, motive [b]) (h2 : ∀ b c, motive [b, c])
    (h3 : ∀ b c d rest, motive rest → motive (b :: c :: d :: rest)) :
    ∀ bs, motive bs
  | [] => h0
  | [b] => h1 b
  | [b, c] => h2 b c
  | b :: c :: d :: rest => h3 b c d rest (threeChunkInduction h0 h1 h2 h3 rest)

theorem toNat_ofNat_valid (n : Nat) (h : n < 55296) : (Char.ofNat n).toNat = n := by
  have hv : n.isValidChar := Or.inl h
  simp [Char.ofNat, hv, Char.toNat, Char.ofNatAux, UInt32.toNat, UInt32.ofNatCore,
    BitVec.toNat_ofNatLt]

theorem sextetOf_sextetChar : ∀ n, n < 64 → sextetOf? (sextetChar n) = some n := by
  decide

theorem sextetChar_ne_eqChar (n : Nat) : sextetChar n ≠ '=' := by
  by_cases h : n < 64
  · revert n h
    decide
  · have hlen : b64Alphabet.length ≤ n := by
      have : b64Alphabet.length = 64 := by decide
      omega
    unfold sextetChar
    rw [List.getD_eq_default _ _ hlen]
    decide

theorem mem_b64EncodeStripped_ne_eqChar :
    ∀ bs, ∀ c ∈ b64EncodeStripped bs, c ≠ '=' := by
  intro bs
  induction bs using threeChunkInduction with
  | h0 => intro c hc; simp [b64EncodeStripped] at hc
  | h1 b =>
    intro c hc
    simp [b64EncodeStripped] at hc
    rcases hc with h | h <;> (subst h; exact sextetChar_ne_eqChar _)
  | h2 b b' =>
    intro c hc
    simp [b64EncodeStripped] at hc
    rcases hc with h | h | h <;> (subst h; exact sextetChar_ne_eqChar _)
  | h3 b b' b'' rest ih =>
    intro c hc
    simp only [b64EncodeStripped, List.mem_cons] at hc
    rcases hc with h | h | h | h | h
    · subst h; exact sextetChar_ne_eqChar _
    · subst h; exact sextetChar_ne_eqChar _
    · subst h; exact sextetChar_ne_eqChar _
    · subst h; exact sextetChar_ne_eqChar _
    · exact ih c h

theorem b64EncodeBytes_eq_stripped_append :
    ∀ bs, b64EncodeBytes bs = b64EncodeStripped bs ++ b64Pad bs := by
  intro bs
  induction bs using threeChunkInduction with
  | h0 => rfl
  | h1 b => rfl
  | h2 b c => rfl
  | h3 b c d rest ih =>
    simp only [b64EncodeBytes, b64EncodeStripped, b64Pad, ih, List.cons_append]

theorem b64Pad_cases (bs : List Nat) :
    b64Pad bs = [] ∨ b64Pad bs = ['='] ∨ b64Pad bs = ['=', '='] := by
  induction bs using threeChunkInduction with
  | h0 => left; rfl
  | h1 b => right; right; rfl
  | h2 b c => right; left; rfl
  | h3 b c d rest ih => exact ih

theorem dropTrailingEq_append (s pad : List Char) (hs : ∀ c ∈ s, c ≠ '=')
    (hp : pad = [] ∨ pad = ['='] ∨ pad = ['=', '=']) :
    dropTrailingEq (s ++ pad) = s := by
  have hlast : ¬ (s.getLast? = some '=') := by
    intro h
    exact hs '=' (List.mem_of_mem_getLast? h) rfl
  rcases hp with h | h | h <;> subst h
  · rw [List.append_nil]
    unfold dropTrailingEq
    rw [if_neg hlast]
  · unfold dropTrailingEq
    rw [List.getLast?_concat, List.dropLast_concat, if_pos rfl, if_neg hlast]
  · have h2 : s ++ ['=', '='] = (s ++ ['=']) ++ ['='] := by simp
    rw [h2]
    unfold dropTrailingEq
    rw [List.getLast?_concat, List.dropLast_concat, List.getLast?_concat,
      List.dropLast_concat, if_pos rfl, if_pos rfl]

theorem b64EncodeBytes_length_mod4 :
    ∀ bs : List Nat, (b64EncodeBytes bs).length % 4 = 0 := by
  intro bs
  induction bs using threeChunkInduction with
  | h0 => rfl
  | h1 b => simp [b64EncodeBytes]
  | h2 b c => simp [b64EncodeBytes]
  | h3 b c d rest ih =>
    simp only [b64EncodeBytes, List.length_cons]
    omega

theorem b64EncodeStripped_length_mod4 :
    ∀ bs : List Nat, (b64EncodeStripped bs).length % 4 ≠ 1 := by
  intro bs
  induction bs using threeChunkInduction with
  | h0 => simp [b64EncodeStripped]
  | h1 b => simp [b64EncodeStripped]
  | h2 b c => simp [b64EncodeStripped]
  | h3 b c d rest ih =>
    simp only [b64EncodeStripped, List.length_cons]
    omega

theorem sextetsOf_b64EncodeStripped :
    ∀ bs : List Nat, (∀ b ∈ bs, b < 256) →
      sextetsOf? (b64EncodeStripped bs) = some (sextetListOf bs) := by
  intro bs
  induction bs using threeChunkInduction with
  | h0 => intro _; rfl
  | h1 b =>
    intro hb
    have h := hb b (by simp)
    simp only [b64EncodeStripped, sextetsOf?, sextetListOf]
    rw [sextetOf_sextetChar _ (by omega), sextetOf_sextetChar _ (by omega)]
  | h2 b c =>
    intro hb
    have h1 := hb b (by simp)
    have h2 := hb c (by simp)
    simp only [b64EncodeStripped, sextetsOf?, sextetListOf]
    rw [sextetOf_sextetChar _ (by omega), sextetOf_sextetChar _ (by omega),
      sextetOf_sextetChar _ (by omega)]
  | h3 b c d rest ih =>
    intro hb
    have h1 := hb b (by simp)
    have h2 := hb c (by simp)
    have h3 := hb d (by simp)
    have hrest : ∀ x ∈ rest, x < 256 := fun x hx => hb x (by simp [hx])
    simp only [b64EncodeStripped, sextetsOf?, sextetListOf]
    rw [sextetOf_sextetChar _ (by omega), sextetOf_sextetChar _ (by omega),
      sextetOf_sextetChar _ (by omega), sextetOf_sextetChar _ (by omega), ih hrest]

theorem b64DecodeSextets_sextetListOf :
    ∀ bs : List Nat, (∀ b ∈ bs, b < 256) →
      b64DecodeSextets (sextetListOf bs) = bs := by
  intro bs
  induction bs using threeChunkInduction with
  | h0 => intro _; rfl
  | h1 b =>
    intro hb
    have h := hb b (by simp)
    simp only [sextetListOf, b64DecodeSextets]
    congr 1
    omega
  | h2 b c =>
    intro hb
    have h1 := hb b (by simp)
    have h2 := hb c (by simp)
    simp only [sextetListOf, b64DecodeSextets]
    congr 1
    · omega
    · congr 1
      omega
  | h3 b c d rest ih =>
    intro hb
    have h1 := hb b (by simp)
    have h2 := hb c (by simp)
    have h3 := hb d (by simp)
    have hrest : ∀ x ∈ rest, x < 256 := fun x hx => hb x (by simp [hx])
    simp only [sextetListOf, b64DecodeSextets, ih hrest]
    congr 1
    · omega
    · congr 1
      · omega
      · congr 1
        omega

theorem atobChars_b64EncodeBytes (bs : List Nat) (hb : ∀ b ∈ bs, b < 256) :
    atobChars? (b64EncodeBytes bs) = some bs := by
  unfold atobChars?
  rw [if_pos (b64EncodeBytes_length_mod4 bs), b64EncodeBytes_eq_stripped_append,
    dropTrailingEq_append _ _ (mem_b64EncodeStripped_ne_eqChar bs) (b64Pad_cases bs),
    if_neg (b64EncodeStripped_length_mod4 bs), sextetsOf_b64EncodeStripped bs hb]
  simp [b64DecodeSextets_sextetListOf bs hb]

/-- The decode built-in inverts the encode built-in on byte strings: the
cursors the pagination emits always decode to what was encoded. -/
theorem atob_btoa (s : String) (h : ∀ c ∈ s.data, c.toNat < 256) :
    atob? (btoa s) = some s := by
  unfold atob? btoa
  have hb : ∀ b ∈ s.data.map Char.toNat, b < 256 := by
    intro b hbm
    rcases List.mem_map.mp hbm with ⟨c, hc, rfl⟩
    exact h c hc
  rw [atobChars_b64EncodeBytes _ hb]
  have hmap : (s.data.map Char.toNat).map Char.ofNat = s.data := by
    rw [List.map_map]
    have hpt : ∀ c ∈ s.data, (Char.ofNat ∘ Char.toNat) c = id c :=
      fun c _ => Char.ofNat_toNat c
    rw [List.map_congr_left hpt, List.map_id]
  simp only [Option.map_some', hmap]

theorem digitsToNat_reverse (l : List Char) : digitsToNat l.reverse = valRev l := by
  induction l with
  | nil => rfl
  | cons c r ih =>
    unfold digitsToNat at *
    rw [List.reverse_cons, List.foldl_append, ih]
    simp [valRev]
    omega

theorem natDigitsRevAux_spec :
    ∀ fuel n, n < fuel →
      (∀ c ∈ natDigitsRevAux fuel n, 48 ≤ c.toNat ∧ c.toNat ≤ 57) ∧
        valRev (natDigitsRevAux fuel n) = n := by
  intro fuel
  induction fuel with
  | zero => intro n h; omega
  | succ f ih =>
    intro n hn
    show (∀ c ∈ (if n < 10 then [digitChar n]
                 else digitChar (n % 10) :: natDigitsRevAux f (n / 10)), _) ∧
      valRev (if n < 10 then [digitChar n]
              else digitChar (n % 10) :: natDigitsRevAux f (n / 10)) = n
    split
    · next h =>
      constructor
      · intro c hc
        simp only [List.mem_singleton] at hc
        subst hc
        rw [digitChar, toNat_ofNat_valid _ (by omega)]
        omega
      · simp only [valRev]
        rw [digitChar, toNat_ofNat_valid _ (by omega)]
        omega
    · next h =>
      have hlt : n / 10 < f := by
        have h1 : n / 10 < n := Nat.div_lt_self (by omega) (by omega)
        omega
      obtain ⟨ihd, ihv⟩ := ih (n / 10) hlt
      constructor
      · intro c hc
        simp only [List.mem_cons] at hc
        rcases hc with hc | hc
        · subst hc
          rw [digitChar, toNat_ofNat_valid _ (by omega)]
          omega
        · exact ihd c hc
      · simp only [valRev, ihv]
        rw [digitChar, toNat_ofNat_valid _ (by omega)]
        omega

theorem natDigitsRev_spec (n : Nat) :
    (∀ c ∈ natDigitsRev n, 48 ≤ c.toNat ∧ c.toNat ≤ 57) ∧
      valRev (natDigitsRev n) = n :=
  natDigitsRevAux_spec (n + 1) n (by omega)

theorem natDigitsRev_ne_nil (n : Nat) : natDigitsRev n ≠ [] := by
  show (if n < 10 then [digitChar n]
        else digitChar (n % 10) :: natDigitsRevAux n (n / 10)) ≠ []
  split <;> simp

theorem jsParseInt_natRepr (n : Nat) : jsParseInt (natRepr n) = .num n := by
  obtain ⟨hd, hv⟩ := natDigitsRev_spec n
  have hdr : ∀ c ∈ (natDigitsRev n).reverse, 48 ≤ c.toNat ∧ c.toNat ≤ 57 := by
    intro c hc
    exact hd c (List.mem_reverse.mp hc)
  unfold jsParseInt natRepr
  have hdata : (String.mk (natDigitsRev n).reverse).data = (natDigitsRev n).reverse := rfl
  rw [hdata]
  have hne : (natDigitsRev n).reverse ≠ [] := by
    simp [natDigitsRev_ne_nil n]
  rcases hrev : (natDigitsRev n).reverse with _ | ⟨c, r⟩
  · exact absurd hrev hne
  · have hc : 48 ≤ c.toNat ∧ c.toNat ≤ 57 := hdr c (by rw [hrev]; simp)
    have hw : jsWhitespace c = false := by
      unfold jsWhitespace
      simp only [Bool.or_eq_false_iff, decide_eq_false_iff_not]
      omega
    rw [List.dropWhile_cons, hw]
    simp only [Bool.false_eq_true, if_false]
    have hcm : ¬ (c = '-') := by
      intro h
      subst h
      revert hc
      decide
    have hcp : ¬ (c = '+') := by
      intro h
      subst h
      revert hc
      decide
    rw [if_neg hcm, if_neg hcp]
    unfold parseIntCore
    have hall : ∀ x ∈ c :: r, isDigitCh x = true := by
      intro x hx
      have := hdr x (by rw [hrev]; exact hx)
      unfold isDigitCh
      simp only [Bool.and_eq_true, decide_eq_true_eq]
      omega
    rw [List.takeWhile_eq_self_iff.mpr hall]
    simp only [List.isEmpty_cons, if_false]
    have hval : digitsToNat (c :: r) = n := by
      rw [← hrev, digitsToNat_reverse, hv]
    rw [hval]
    simp

theorem natRepr_data_ne_nil (n : Nat) : (natRepr n).data ≠ [] := by
  unfold natRepr
  simp [natDigitsRev_ne_nil n]

theorem natRepr_codes_lt (n : Nat) : ∀ c ∈ (natRepr n).data, c.toNat < 256 := by
  intro c hc
  have := (natDigitsRev_spec n).1 c (List.mem_reverse.mp hc)
  omega

theorem b64EncodeBytes_ne_nil (bs : List Nat) (h : bs ≠ []) :
    b64EncodeBytes bs ≠ [] := by
  unfold b64EncodeBytes
  split <;> simp_all

theorem btoa_natRepr_ne_empty (n : Nat) : btoa (natRepr n) ≠ "" := by
  unfold btoa
  intro h
  have hd : (String.mk (b64EncodeBytes ((natRepr n).data.map Char.toNat))).data = [] := by
    rw [h]
  exact b64EncodeBytes_ne_nil _ (by simp [natRepr_data_ne_nil n]) hd

theorem jsNumRepr_natCast (n : Nat) : jsNumRepr (.num (n : Int)) = natRepr n := by
  show (if (n : Int) < 0 then "-" ++ natRepr (-(n : Int)).toNat else natRepr (n : Int).toNat) =
    natRepr n
  rw [if_neg (by omega)]
  simp

/-! ### The claims -/

/-- C9: `getSchemaStatus` computes member statuses, connected count and
summed tool count, but its schema-level `status` field is the literal
`"active"` for every combination of member states — the `"disabled"` and
`"error"` values of the `SchemaStatus` type are never produced by this
operation. -/
theorem getSchemaStatus_always_active (servers : List ServerStatusRec) :
    (getSchemaStatus servers).status = SchemaState.active := rfl

/-- C10: `resources/subscribe` and `resources/unsubscribe` always reply
`success = true` with the success message, for every subscription set and
every URI — including unsubscribing a URI that was never subscribed —
because the underlying set add and delete cannot fail; the
`success = false` reply is unreachable. -/
theorem subscribe_unsubscribe_always_succeed (subs : List String) (uri : String) :
    (handleResourceSubscribe subs uri).2 =
      { success := true, message := "Successfully subscribed to " ++ uri } ∧
    (handleResourceUnsubscribe subs uri).2 =
      { success := true, message := "Successfully unsubscribed from " ++ uri } :=
  ⟨rfl, rfl⟩

/-- C6 (against the claim): `StdioMCPServer.disconnect` never cancels a
pending restart timer — the `setTimeout` handle is not stored anywhere —
so after a non-zero exit with restart configured followed by an explicit
disconnect, the stale timer still fires and triggers a reconnect.  The
concrete scenario: a connected process connection with `restart = true`
whose subprocess exits with code 1 and is then explicitly disconnected. -/
theorem stdio_restart_timer_survives_disconnect :
    (∀ c : StdioConn, (stdioDisconnect c).restartPending = c.restartPending) ∧
    (stdioDisconnect (onProcessExit ⟨true, none⟩ ⟨.connected, false, [7]⟩ (some 1))).restartPending
      = true ∧
    (fireRestartTimer
      (stdioDisconnect (onProcessExit ⟨true, none⟩ ⟨.connected, false, [7]⟩ (some 1)))).2
      = true := by
  refine ⟨fun c => ?_, rfl, rfl⟩
  unfold stdioDisconnect
  split <;> rfl

/-- C5 (against the claim): `HTTPMCPServer.connect` from the fresh
(disconnected) state can never succeed: the `tools/list` probe goes
through `sendRequest`, whose `isConnected()` guard throws before any HTTP
request is issued, so `connect` ends with `status = error` and rethrows
regardless of how the backend would have answered the probe.  The
spec's success path (status `connected`, toolCount populated) is
unreachable. -/
theorem httpConnect_always_fails (id : String) (transport : Except String (List Tool)) :
    (httpConnect freshHTTPState id transport).1.status = ConnStatus.error ∧
    (httpConnect freshHTTPState id transport).2 =
      Except.error ("Connection test failed: Error: " ++
        ("HTTP server " ++ squote ++ id ++ squote ++ " is not connected")) :=
  ⟨rfl, rfl⟩

/-- C1: `callTool` is a total function into tool results (the embedding
throws nothing), and every abnormal shape yields an `isError = true`
result with an explanatory text: a name with no hyphen or an empty
connection-id or tool part, a connection id absent from the schema, a
target that is not connected, and a transport exception thrown by the
target's `callTool`; a successful result lacking the `isError` field is
normalized to `isError = false`. -/
theorem callTool_error_contract (schemaName : String)
    (servers : List (String × CallServer)) (name arguments : String) :
    (parseToolName name = none →
      callTool schemaName servers name arguments =
        errorResult ("Invalid tool name format: " ++ name ++
          ". Expected format: serverId-toolName")) ∧
    (∀ sid tname, parseToolName name = some (sid, tname) → (sid = "" ∨ tname = "") →
      callTool schemaName servers name arguments =
        errorResult ("Invalid tool name format: " ++ name ++
          ". Expected format: serverId-toolName")) ∧
    (∀ sid tname, parseToolName name = some (sid, tname) → ¬ (sid = "" ∨ tname = "") →
      servers.lookup sid = none →
      callTool schemaName servers name arguments =
        errorResult ("Server " ++ squote ++ sid ++ squote ++ " not found in schema " ++
          squote ++ schemaName ++ squote)) ∧
    (∀ sid tname srv, parseToolName name = some (sid, tname) → ¬ (sid = "" ∨ tname = "") →
      servers.lookup sid = some srv → srv.connected = false →
      callTool schemaName servers name arguments =
        errorResult ("Server " ++ squote ++ sid ++ squote ++ " is not connected")) ∧
    (∀ sid tname srv msg, parseToolName name = some (sid, tname) → ¬ (sid = "" ∨ tname = "") →
      servers.lookup sid = some srv → srv.connected = true →
      srv.call tname arguments = .throwsWith msg →
      callTool schemaName servers name arguments =
        errorResult ("Tool execution error: " ++ msg)) ∧
    (∀ sid tname srv r, parseToolName name = some (sid, tname) → ¬ (sid = "" ∨ tname = "") →
      servers.lookup sid = some srv → srv.connected = true →
      srv.call tname arguments = .ok r →
      callTool schemaName servers name arguments =
        { r with isError := some (r.isError.getD false) }) ∧
    (∀ msg, (errorResult msg).isError = some true ∧
      (errorResult msg).content = [{ type := "text", text := msg }]) := by
  refine ⟨?_, ?_, ?_, ?_, ?_, ?_, fun msg => ⟨rfl, rfl⟩⟩
  · intro h
    simp [callTool, h]
  · intro sid tname h hemp
    simp [callTool, h, if_pos hemp]
  · intro sid tname h hemp hlk
    simp [callTool, h, if_neg hemp, hlk]
  · intro sid tname srv h hemp hlk hconn
    simp [callTool, h, if_neg hemp, hlk, hconn]
  · intro sid tname srv msg h hemp hlk hconn hcall
    simp [callTool, h, if_neg hemp, hlk, hconn, hcall]
  · intro sid tname srv r h hemp hlk hconn hcall
    simp [callTool, h, if_neg hemp, hlk, hconn, hcall]

/-- Witness for C1: every branch of the contract at concrete inputs over
the demo schema. -/
theorem callTool_error_contract_witness :
    callTool "default" demoSchema "noDash" "x" =
      errorResult ("Invalid tool name format: noDash. Expected format: serverId-toolName") ∧
    callTool "default" demoSchema "-read" "x" =
      errorResult ("Invalid tool name format: -read. Expected format: serverId-toolName") ∧
    callTool "default" demoSchema "ghost-read" "x" =
      errorResult ("Server " ++ squote ++ "ghost" ++ squote ++ " not found in schema " ++
        squote ++ "default" ++ squote) ∧
    callTool "default" demoSchema "down-read" "x" =
      errorResult ("Server " ++ squote ++ "down" ++ squote ++ " is not connected") ∧
    callTool "default" demoSchema "bad-read" "x" =
      errorResult ("Tool execution error: boom") ∧
    callTool "default" demoSchema "fsA-read" "x" =
      { content := [{ type := "text", text := "read:x" }], isError := some false } := by
  refine ⟨?_, ?_, ?_, ?_, ?_, ?_⟩
  · exact (callTool_error_contract "default" demoSchema "noDash" "x").1 (by decide)
  · exact (callTool_error_contract "default" demoSchema "-read" "x").2.1 "" "read"
      (by decide) (by decide)
  · exact (callTool_error_contract "default" demoSchema "ghost-read" "x").2.2.1 "ghost" "read"
      (by decide) (by decide) rfl
  · exact (callTool_error_contract "default" demoSchema "down-read" "x").2.2.2.1 "down" "read"
      demoDownServer (by decide) (by decide) rfl rfl
  · exact (callTool_error_contract "default" demoSchema "bad-read" "x").2.2.2.2.1 "bad" "read"
      demoThrowServer "boom" (by decide) (by decide) rfl rfl rfl
  · exact (callTool_error_contract "default" demoSchema "fsA-read" "x").2.2.2.2.2.1 "fsA" "read"
      demoOkServer { content := [{ type := "text", text := "read:x" }], isError := none }
      (by decide) (by decide) rfl rfl rfl

theorem memberTools_names (m : MemberConn) :
    (memberTools m).map Tool.name =
      (contributedTools m).map (fun t => m.serverId ++ "-" ++ t.name) := by
  unfold memberTools contributedTools
  split
  · cases m.toolList <;> simp [prefixedTool]
  · rfl

theorem memberResources_names (m : MemberConn) :
    (memberResources m).map Resource.name = (contributedResources m).map Resource.name := by
  unfold memberResources contributedResources
  split
  · cases m.resourceList <;> simp [defaultedResource]
  · rfl

theorem memberPrompts_names (m : MemberConn) :
    (memberPrompts m).map Prompt.name = (contributedPrompts m).map Prompt.name := by
  unfold memberPrompts contributedPrompts
  split
  · cases m.promptList <;> simp
  · rfl

/-- C4 counterexample: `listResources` aggregation does **not** rewrite
resource names.  A connected member `a` exposing a resource named `r`
contributes it under its original name `r`, not `a-r`. -/
theorem resource_names_not_prefixed :
    (aggregateResources demoResMember).map Resource.name = ["r"] ∧
    (["r"] : List String) ≠ ["a-r"] := ⟨rfl, by decide⟩

/-- C4 amended: on aggregation, tool names of every connected member are
rewritten to `{connectionId}-{originalName}`, while resource names and
prompt names are both left unprefixed (`listResources` only defaults the
priority annotation; the claim's statement that resource names are
rewritten does not hold). -/
theorem aggregation_naming (ms : List MemberConn) :
    (aggregateTools ms).map Tool.name =
      (ms.map (fun m => (contributedTools m).map (fun t => m.serverId ++ "-" ++ t.name))).flatten ∧
    (aggregateResources ms).map Resource.name =
      (ms.map (fun m => (contributedResources m).map Resource.name)).flatten ∧
    (aggregatePrompts ms).map Prompt.name =
      (ms.map (fun m => (contributedPrompts m).map Prompt.name)).flatten := by
  refine ⟨?_, ?_, ?_⟩
  · unfold aggregateTools
    rw [List.map_flatten, List.map_map]
    congr 1
    exact List.map_congr_left (fun m _ => memberTools_names m)
  · unfold aggregateResources
    rw [List.map_flatten, List.map_map]
    congr 1
    exact List.map_congr_left (fun m _ => memberResources_names m)
  · unfold aggregatePrompts
    rw [List.map_flatten, List.map_map]
    congr 1
    exact List.map_congr_left (fun m _ => memberPrompts_names m)

theorem decodeStartIndex_of_atob_none (c : String) (h : atob? c = none) :
    decodeStartIndex (some c) = .num 0 := by
  have hne : ¬ (c = "") := by
    intro he
    subst he
    exact (by decide : atob? "" ≠ none) h
  show (if c = "" then JSNum.num 0
        else match atob? c with
          | none => JSNum.num 0
          | some t => jsParseInt t) = JSNum.num 0
  rw [if_neg hne, h]

/-- C3 counterexample: a cursor that is valid base64 of a non-numeric
string (`"eA=="` decodes to `"x"`) does not error, but `parseInt` yields
`NaN` and `slice(NaN, NaN)` produces an **empty** page instead of the
absent-cursor page; `listResourceTemplates` applies a bare `parseInt` with
no decode-or-default at all, so a plainly invalid cursor (`"x"`) likewise
yields an empty page while the absent cursor yields the built-in
templates. -/
theorem invalid_cursor_yields_empty_page :
    (listToolsPage demoToolMember (some "eA==")).items = [] ∧
    (listToolsPage demoToolMember none).items ≠ [] ∧
    (listTemplatesPage [] "default" (some "x")).resourceTemplates = [] ∧
    (listTemplatesPage [] "default" none).resourceTemplates ≠ [] := by
  refine ⟨?_, ?_, ?_, ?_⟩ <;> decide

/-- C3 amended: no cursor value ever makes the paginated listings throw,
and a cursor on which the base64 decode itself fails (`atob` throws, the
`catch` applies) is treated as offset zero by `listTools` and
`listResources`, reproducing the absent-cursor page.  (A cursor that
decodes to a non-numeric string instead yields a `NaN` offset and an empty
page — see the counterexample — and `listResourceTemplates` has no
decode-or-default fallback at all.) -/
theorem undecodable_cursor_offset_zero (ms : List MemberConn) (c : String)
    (h : atob? c = none) :
    listToolsPage ms (some c) = listToolsPage ms none ∧
    listResourcesPage ms (some c) = listResourcesPage ms none := by
  have hd : decodeStartIndex (some c) = decodeStartIndex none := by
    rw [decodeStartIndex_of_atob_none c h]
    rfl
  unfold listToolsPage listResourcesPage paginate
  rw [hd]
  exact ⟨rfl, rfl⟩

/-- Witness for C3's amended claim: the cursor `"%%"` fails base64
decoding and reproduces the absent-cursor page. -/
theorem undecodable_cursor_offset_zero_witness :
    atob? "%%" = none ∧
    listToolsPage demoToolMember (some "%%") = listToolsPage demoToolMember none :=
  ⟨by decide, (undecodable_cursor_offset_zero demoToolMember "%%" (by decide)).1⟩

/-- C8: an accepted `sendRequest` stores exactly one pending entry, armed
with the configured deadline (default 30000 ms when none is configured);
when that deadline timer fires the request rejects with the timeout
message and its entry is removed, restoring the pending map exactly — so
the map does not grow under repeatedly timed-out requests; and
`handleResponse` likewise clears the matched entry (an unmatched id leaves
the map unchanged). -/
theorem stdio_timeout_clears_pending (cfg : StdioReqConfig) (st stA : ReqState)
    (id : Nat) (method : String)
    (hwf : ∀ e ∈ st.pending, e.id < st.requestId)
    (hsend : stdioSendRequest cfg st true true true = (stA, .accepted id)) :
    stA.pending = st.pending ++ [{ id := id, delay := requestDeadline cfg }] ∧
    (fireTimeout method stA id).2 = "Request timeout: " ++ method ∧
    (fireTimeout method stA id).1.pending = st.pending ∧
    (cfg.timeout = none → requestDeadline cfg = 30000) ∧
    (∀ st2 : ReqState, ∀ rid : Nat,
      (handleResponse st2 rid).1.pending = st2.pending.filter (fun e => e.id ≠ rid)) := by
  have hred : stdioSendRequest cfg st true true true =
      ({ requestId := st.requestId + 1,
         pending := st.pending ++ [{ id := st.requestId, delay := requestDeadline cfg }] },
       .accepted st.requestId) := rfl
  rw [hred] at hsend
  injection hsend with h1 h2
  injection h2 with h2
  have hid : id = st.requestId := h2.symm
  have hstA : stA.pending = st.pending ++ [{ id := id, delay := requestDeadline cfg }] := by
    rw [← h1, hid]
  refine ⟨hstA, rfl, ?_, ?_, ?_⟩
  · show stA.pending.filter (fun e => e.id ≠ id) = st.pending
    rw [hstA, List.filter_append]
    have h1 : st.pending.filter (fun e => e.id ≠ id) = st.pending := by
      apply List.filter_eq_self.mpr
      intro e he
      have := hwf e he
      simp only [ne_eq, decide_not, Bool.not_eq_eq_eq_not, Bool.not_true, decide_eq_false_iff_not]
      omega
    have h2 : ([{ id := id, delay := requestDeadline cfg }] : List PendingEntry).filter
        (fun e => e.id ≠ id) = [] := by simp
    rw [h1, h2, List.append_nil]
  · intro hnone
    simp [requestDeadline, hnone]
  · intro st2 rid
    unfold handleResponse
    split
    · rfl
    · next hany =>
      simp only [ne_eq, decide_not]
      show st2.pending = st2.pending.filter (fun e => !decide (e.id = rid))
      symm
      apply List.filter_eq_self.mpr
      intro e he
      simp only [List.any_eq_true] at hany
      simp only [Bool.not_eq_true', decide_eq_false_iff_not]
      intro heq
      exact hany ⟨e, he, by simp [heq]⟩

/-- Witness for C8: a concrete send-then-timeout cycle on a fresh
connection with the default deadline. -/
theorem jsnum_add_nat (n k : Nat) :
    (JSNum.num (n : Int)).add (.num (k : Int)) = .num ((n + k : Nat) : Int) := by
  simp [JSNum.add]

theorem decodeStartIndex_btoa (n : Nat) :
    decodeStartIndex (some (btoa (natRepr n))) = .num (n : Int) := by
  show (if btoa (natRepr n) = "" then JSNum.num 0
        else match atob? (btoa (natRepr n)) with
          | none => JSNum.num 0
          | some t => jsParseInt t) = JSNum.num (n : Int)
  rw [if_neg (btoa_natRepr_ne_empty n), atob_btoa _ (natRepr_codes_lt n)]
  exact jsParseInt_natRepr n

theorem jsSliceIdx_num (len : Nat) (i : Int) :
    jsSliceIdx len (.num i) = if i < 0 then ((len : Int) + i).toNat else min i.toNat len := rfl

theorem jsnum_ltNat_num (i : Int) (N : Nat) :
    (JSNum.num i).ltNat N = decide (i < (N : Int)) := rfl

theorem jsSlice_nat (l : List α) (n k : Nat) (hn : n ≤ l.length) :
    jsSlice l (.num (n : Int)) (.num ((n + k : Nat) : Int)) = (l.drop n).take k := by
  unfold jsSlice
  rw [jsSliceIdx_num, jsSliceIdx_num, if_neg (by omega), if_neg (by omega)]
  rw [Int.toNat_natCast, Int.toNat_natCast]
  rw [min_eq_left hn, List.drop_take]
  apply List.take_eq_take.mpr
  rw [List.length_drop]
  omega

theorem paginate50_items (l : List Tool) (c : Option String) (n : Nat)
    (hc : decodeStartIndex c = .num (n : Int)) (hn : n ≤ l.length) :
    (paginate 50 l c).items = (l.drop n).take 50 := by
  show jsSlice l (decodeStartIndex c) ((decodeStartIndex c).add (.num 50)) = _
  rw [hc]
  have h50 : ((50 : Int)) = ((50 : Nat) : Int) := by norm_num
  rw [h50, jsnum_add_nat]
  exact jsSlice_nat l n 50 hn

theorem paginate50_nextCursor (l : List Tool) (c : Option String) (n : Nat)
    (hc : decodeStartIndex c = .num (n : Int)) :
    (paginate 50 l c).nextCursor =
      (if n + 50 < l.length then some (btoa (natRepr (n + 50))) else none) := by
  show (if ((decodeStartIndex c).add (.num 50)).ltNat l.length then
          some (btoa (jsNumRepr ((decodeStartIndex c).add (.num 50))))
        else none) = _
  have h50 : ((50 : Int)) = ((50 : Nat) : Int) := by norm_num
  rw [hc, h50, jsnum_add_nat, jsnum_ltNat_num]
  by_cases hlt : n + 50 < l.length
  · rw [if_pos, if_pos hlt, jsNumRepr_natCast]
    simp only [decide_eq_true_eq]
    omega
  · rw [if_neg, if_neg hlt]
    simp only [decide_eq_true_eq]
    omega

theorem followPages_unfold (allT : List Tool) (c : Option String) (fuel : Nat) :
    followPages allT c (fuel + 1) =
      paginate 50 allT c ::
        (match (paginate 50 allT c).nextCursor with
         | none => []
         | some c' => followPages allT (some c') fuel) := rfl

/-- Invariant of the cursor-following process: starting from any cursor
that decodes to offset `n ≤ N`, with enough fuel, the concatenated pages
are exactly the tools from offset `n` on, and each page carries a
`nextCursor` exactly when tools remain beyond what has been emitted so
far. -/
theorem followPages_spec (allT : List Tool) :
    ∀ (fuel n : Nat) (c : Option String),
      decodeStartIndex c = .num (n : Int) → n ≤ allT.length →
      allT.length - n ≤ 50 * fuel → 0 < fuel →
      (((followPages allT c fuel).map Page.items).flatten = allT.drop n) ∧
      (∀ i (h : i < (followPages allT c fuel).length),
        ((followPages allT c fuel).get ⟨i, h⟩).nextCursor.isSome ↔
          n + (((followPages allT c fuel).map Page.items).take (i + 1)).flatten.length
            < allT.length) := by
  intro fuel
  induction fuel with
  | zero => intro n c _ _ _ h0; omega
  | succ f ih =>
    intro n c hc hn hbound _
    have hitems := paginate50_items allT c n hc hn
    have hnext := paginate50_nextCursor allT c n hc
    by_cases hlt : n + 50 < allT.length
    · rw [if_pos hlt] at hnext
      have hc' := decodeStartIndex_btoa (n + 50)
      have hf : 0 < f := by omega
      obtain ⟨ihj, ihp⟩ := ih (n + 50) (some (btoa (natRepr (n + 50)))) hc'
        (by omega) (by omega) hf
      have hrw : followPages allT c (f + 1) =
          paginate 50 allT c :: followPages allT (some (btoa (natRepr (n + 50)))) f := by
        rw [followPages_unfold, hnext]
      have hjoin : (((followPages allT c (f + 1)).map Page.items).flatten = allT.drop n) := by
        rw [hrw]
        simp only [List.map_cons, List.flatten_cons, hitems, ihj]
        conv_rhs => rw [← List.take_append_drop 50 (allT.drop n)]
        rw [List.drop_drop]
      refine ⟨hjoin, ?_⟩
      intro i h
      match i with
      | 0 =>
        show (paginate 50 allT c).nextCursor.isSome ↔ _
        rw [hnext, hrw]
        simp only [Option.isSome_some, List.map_cons, List.take_succ_cons, List.take_zero,
          List.flatten_cons, List.flatten_nil, List.append_nil, hitems, true_iff,
          List.length_take, List.length_drop]
        omega
      | Nat.succ i =>
        have h' : i < (followPages allT (some (btoa (natRepr (n + 50)))) f).length := by
          rw [hrw] at h
          simpa using h
        have hstep := ihp i h'
        have hget : ((followPages allT c (f + 1)).get ⟨i + 1, h⟩) =
            ((followPages allT (some (btoa (natRepr (n + 50)))) f).get ⟨i, h'⟩) := by
          have := hrw
          exact List.get_of_eq this ⟨i + 1, h⟩
        rw [hget, hstep, hrw]
        simp only [List.map_cons, List.take_succ_cons, List.flatten_cons,
          List.length_append, hitems, List.length_take, List.length_drop]
        omega
    · rw [if_neg hlt] at hnext
      have hrw : followPages allT c (f + 1) = [paginate 50 allT c] := by
        rw [followPages_unfold, hnext]
      have htake : (allT.drop n).take 50 = allT.drop n := by
        apply List.take_of_length_le
        rw [List.length_drop]
        omega
      refine ⟨?_, ?_⟩
      · rw [hrw]
        simp only [List.map_cons, List.map_nil, List.flatten_cons, List.flatten_nil,
          List.append_nil, hitems, htake]
      · intro i h
        have hi : i = 0 := by
          rw [hrw] at h
          simpa using h
        subst hi
        show (paginate 50 allT c).nextCursor.isSome ↔ _
        rw [hnext, hrw]
        simp only [Option.isSome_none, List.map_cons, List.map_nil, List.take_succ_cons,
          List.take_zero, List.flatten_cons, List.flatten_nil, List.append_nil, hitems,
          htake, List.length_drop, Bool.false_eq_true, false_iff]
        omega

/-- C2: for every fixed aggregated tool list, starting the paginated
`listTools` with no cursor and repeatedly following the returned
`nextCursor` (page size 50) yields pages whose concatenation equals the
full unpaginated list exactly once, and a page carries a `nextCursor`
exactly when elements remain beyond the pages emitted so far. -/
theorem listTools_pagination_complete (allT : List Tool) :
    (((followPages allT none (allT.length + 1)).map Page.items).flatten = allT) ∧
    (∀ i (h : i < (followPages allT none (allT.length + 1)).length),
      ((followPages allT none (allT.length + 1)).get ⟨i, h⟩).nextCursor.isSome ↔
        (((followPages allT none (allT.length + 1)).map Page.items).take (i + 1)).flatten.length
          < allT.length) := by
  have hc : decodeStartIndex (none : Option String) = .num ((0 : Nat) : Int) := rfl
  obtain ⟨h1, h2⟩ := followPages_spec allT (allT.length + 1) 0 none hc
    (by omega) (by omega) (by omega)
  refine ⟨by simpa using h1, fun i h => ?_⟩
  have hstep := h2 i h
  simpa using hstep

/-- Witness for C2: sixty tools paginate into a page of fifty with cursor
`"NTA="` (base64 of `"50"`) followed by a page of ten with no cursor, and
the two pages concatenate back to the original list. -/
theorem listTools_pagination_complete_witness :
    ((followPages demo60 none 61).map Page.items).flatten = demo60 ∧
    (followPages demo60 none 61).map Page.nextCursor = [some "NTA=", none] :=
  ⟨(listTools_pagination_complete demo60).1, by decide⟩

theorem noDashSplitList (l1 : List Char) :
    ∀ l2 t1 t2 : List Char, '-' ∉ l1 → '-' ∉ l2 →
      l1 ++ '-' :: t1 = l2 ++ '-' :: t2 → l1 = l2 ∧ t1 = t2 := by
  induction l1 with
  | nil =>
    intro l2 t1 t2 h1 h2 heq
    cases l2 with
    | nil => simpa using heq
    | cons c r =>
      simp only [List.nil_append, List.cons_append, List.cons.injEq] at heq
      exact absurd (heq.1 ▸ List.mem_cons_self c r) h2
  | cons c r ih =>
    intro l2 t1 t2 h1 h2 heq
    cases l2 with
    | nil =>
      simp only [List.cons_append, List.nil_append, List.cons.injEq] at heq
      exact absurd (heq.1 ▸ List.mem_cons_self c r) h1
    | cons c' r' =>
      simp only [List.cons_append, List.cons.injEq] at heq
      obtain ⟨hc, hrest⟩ := heq
      have h1' : '-' ∉ r := fun hm => h1 (List.mem_cons_of_mem _ hm)
      have h2' : '-' ∉ r' := fun hm => h2 (List.mem_cons_of_mem _ hm)
      obtain ⟨ha, hb⟩ := ih r' t1 t2 h1' h2' hrest
      exact ⟨by rw [hc, ha], hb⟩

/-- The public-name split is unambiguous when connection ids contain no
hyphen: equal `{id}-{tool}` names force equal ids and equal tool names. -/
theorem prefixed_name_inj (s1 s2 t1 t2 : String)
    (h1 : '-' ∉ s1.data) (h2 : '-' ∉ s2.data)
    (heq : s1 ++ "-" ++ t1 = s2 ++ "-" ++ t2) : s1 = s2 ∧ t1 = t2 := by
  have hd : s1.data ++ '-' :: t1.data = s2.data ++ '-' :: t2.data := by
    have h := congrArg String.data heq
    simpa [String.data_append, List.append_assoc] using h
  obtain ⟨ha, hb⟩ := noDashSplitList s1.data s2.data t1.data t2.data h1 h2 hd
  exact ⟨String.ext ha, String.ext hb⟩

/-- C7: for a schema whose connection ids are pairwise distinct and
hyphen-free, and whose members each report pairwise-distinct tool names,
the aggregated tool name list is pairwise distinct — even when two
connections expose identically named tools. -/
theorem aggregated_tool_names_distinct (ms : List MemberConn)
    (hids : (ms.map MemberConn.serverId).Pairwise (· ≠ ·))
    (hnd : ∀ m ∈ ms, '-' ∉ m.serverId.data)
    (htl : ∀ m ∈ ms, ((m.toolList.getD []).map Tool.name).Pairwise (· ≠ ·)) :
    ((aggregateTools ms).map Tool.name).Pairwise (· ≠ ·) := by
  have hcontrib : ∀ m ∈ ms, ((contributedTools m).map Tool.name).Pairwise (· ≠ ·) := by
    intro m hm
    unfold contributedTools
    split
    · exact htl m hm
    · simp
  unfold aggregateTools
  rw [List.map_flatten, List.map_map, List.pairwise_flatten]
  constructor
  · intro l hl
    rcases List.mem_map.mp hl with ⟨m, hm, rfl⟩
    show ((memberTools m).map Tool.name).Pairwise (· ≠ ·)
    rw [memberTools_names m, List.pairwise_map]
    have hp := (List.pairwise_map.mp (hcontrib m hm))
    refine hp.imp ?_
    intro a b hab heq
    exact hab (prefixed_name_inj m.serverId m.serverId a.name b.name
      (hnd m hm) (hnd m hm) heq).2
  · have hids' : ms.Pairwise (fun m1 m2 => m1.serverId ≠ m2.serverId) :=
      List.pairwise_map.mp hids
    rw [List.pairwise_map]
    refine List.Pairwise.imp_of_mem ?_ hids'
    intro m1 m2 hm1 hm2 hne x hx y hy heq
    rw [Function.comp_apply, memberTools_names m1] at hx
    rw [Function.comp_apply, memberTools_names m2] at hy
    rcases List.mem_map.mp hx with ⟨t1, _, rfl⟩
    rcases List.mem_map.mp hy with ⟨t2, _, rfl⟩
    exact hne (prefixed_name_inj m1.serverId m2.serverId t1.name t2.name
      (hnd m1 hm1) (hnd m2 hm2) heq).1

/-- Witness for C7: two members with ids `a` and `b` both exposing a tool
`t` aggregate to the distinct names `a-t` and `b-t`. -/
theorem aggregated_tool_names_distinct_witness :
    ((aggregateTools demoTwoMembers).map Tool.name).Pairwise (· ≠ ·) :=
  aggregated_tool_names_distinct demoTwoMembers (by decide) (by decide) (by decide)

theorem stdio_timeout_clears_pending_witness :
    (fireTimeout "tools/list" { requestId := 1, pending := [{ id := 0, delay := 30000 }] } 0).1.pending
      = [] :=
  (stdio_timeout_clears_pending { timeout := none } { requestId := 0, pending := [] }
    { requestId := 1, pending := [{ id := 0, delay := 30000 }] } 0 "tools/list"
    (by simp) rfl).2.2.1

end McpsProxy

